import Mathlib

/-!
Verification of the content-extraction-and-conversion pipeline in `s1.py`:
main-content localization (`extract_main_content`), HTML sanitization
(`clean_html`), HTML-to-Markdown transformation
(`convert_to_markdown_with_details`) and the orchestrator (`scrape_robustly`).

The HTML documents the pipeline manipulates are embedded as a DOM forest
(`Node`/`NodeList`).  The library operations the source calls
(BeautifulSoup's lenient `html.parser` tree builder and selector search,
lxml's `Cleaner`/`fromstring`/`tostring`, and `markdownify`'s converter) are
modelled as executable Lean functions whose doc comments state exactly which
library behavior they embed and with which of the options that `s1.py`
passes.  Python exceptions are modelled by the `PyResult` sum: `.returns`
is a normal return, `.raises` an exception propagating to the caller.
-/

/-- Python `str.strip()` whitespace set (also the HTML whitespace set used
by the lenient parser and by CSS class splitting). -/
def isPySpace (c : Char) : Bool :=
  c = ' ' || c = '\t' || c = '\n' || c = '\r' || c = '\x0b' || c = '\x0c'

/-- Drop leading whitespace from a char list (Python `lstrip`). -/
def lstripL (l : List Char) : List Char := l.dropWhile isPySpace

/-- Drop trailing whitespace from a char list (Python `rstrip`). -/
def rstripL (l : List Char) : List Char := (l.reverse.dropWhile isPySpace).reverse

/-- Python `str.strip()`. -/
def pyStrip (s : String) : String := ⟨rstripL (lstripL s.data)⟩

/-- Whitespace-separated tokens of a char list (Python `str.split()`,
used for the tokens of a `class` attribute and for `rel` tokens). -/
def splitWsL : List Char → List (List Char)
  | [] => []
  | c :: cs =>
      if isPySpace c then splitWsL cs
      else
        match splitWsL cs with
        | [] => [[c]]
        | tok :: toks =>
            match cs with
            | [] => [[c]]
            | d :: _ => if isPySpace d then [c] :: tok :: toks else (c :: tok) :: toks

/-- Whitespace-separated tokens of a string. -/
def pySplitWs (s : String) : List String := (splitWsL s.data).map (fun l => ⟨l⟩)

/-- An attribute list as BeautifulSoup/lxml expose it: name/value pairs. -/
abbrev Attr := String × String

mutual
/-- The DOM tree produced by the lenient parsers: text nodes and element
nodes.  (Comments, doctypes and processing instructions are discarded at
parse time, as all three stages of `s1.py` either skip or remove them.) -/
inductive Node where
  | text (s : String)
  | elem (tag : String) (attrs : List Attr) (children : NodeList)
deriving Repr, DecidableEq
inductive NodeList where
  | nil
  | cons (hd : Node) (tl : NodeList)
deriving Repr, DecidableEq
end

def NodeList.append : NodeList → NodeList → NodeList
  | .nil, ms => ms
  | .cons n ns, ms => .cons n (ns.append ms)

instance : Append NodeList := ⟨NodeList.append⟩

/-- The tag of a node (text nodes get the sentinel `#text`, matching no
element selector). -/
def tagOf : Node → String
  | .text _ => "#text"
  | .elem t _ _ => t

/-- Attribute lookup: first binding of the name, as in the `attrib`
dictionaries of the parsers. -/
def attrLookup (attrs : List Attr) (name : String) : Option String :=
  match attrs with
  | [] => none
  | (n, v) :: rest => if n = name then some v else attrLookup rest name

/-- HTML void elements: the lenient parser gives them no children. -/
def voidTags : List String :=
  ["area", "base", "br", "col", "embed", "hr", "img", "input", "link",
   "meta", "param", "source", "track", "wbr"]

def lowerStr (s : String) : String := ⟨s.data.map Char.toLower⟩

def isNameChar (c : Char) : Bool := c.isAlphanum || c = '-' || c = '_' || c = ':'

/-- Attribute scanning state for the tokenizer: reads the attributes of a
start tag up to (and including) the closing `>`/`/>`.  Returns the
attributes, whether the tag was self-closing, and the rest of the input.
Fuel-driven so that the definition is structural and computes. -/
def scanAttrs : Nat → List Char → List Attr → (List Attr × Bool × List Char)
  | 0, cs, acc => (acc.reverse, false, cs)
  | _ + 1, [], acc => (acc.reverse, false, [])
  | fuel + 1, c :: cs, acc =>
      if isPySpace c then scanAttrs fuel cs acc
      else if c = '>' then (acc.reverse, false, cs)
      else if c = '/' then
        match cs with
        | '>' :: rest => (acc.reverse, true, rest)
        | _ => scanAttrs fuel cs acc
      else
        let name := (c :: cs.takeWhile isNameChar)
        let rest1 := cs.dropWhile isNameChar
        let aname := lowerStr ⟨name⟩
        match rest1 with
        | '=' :: '"' :: rest2 =>
            let v := rest2.takeWhile (fun d => d ≠ '"')
            let rest3 := (rest2.dropWhile (fun d => d ≠ '"')).drop 1
            scanAttrs fuel rest3 ((aname, ⟨v⟩) :: acc)
        | '=' :: '\'' :: rest2 =>
            let v := rest2.takeWhile (fun d => d ≠ '\'')
            let rest3 := (rest2.dropWhile (fun d => d ≠ '\'')).drop 1
            scanAttrs fuel rest3 ((aname, ⟨v⟩) :: acc)
        | '=' :: rest2 =>
            let v := rest2.takeWhile (fun d => !(isPySpace d) && d ≠ '>')
            let rest3 := rest2.dropWhile (fun d => !(isPySpace d) && d ≠ '>')
            scanAttrs fuel rest3 ((aname, ⟨v⟩) :: acc)
        | _ => scanAttrs fuel rest1 ((aname, "") :: acc)

mutual
/-- Model of BeautifulSoup's lenient `html.parser` tree builder as `s1.py`
uses it (`BeautifulSoup(html_content, 'html.parser')` and the parse done by
`markdownify`).  Character data becomes text nodes; start tags open
elements (tag and attribute names lowercased); an end tag closes the
innermost open element of that name and is ignored otherwise; comments,
doctypes and processing instructions are skipped; void elements take no
children; unterminated markup is recovered from, never raised on.
Crucially, `html.parser` does NOT synthesize `<html>`/`<body>` wrappers:
a document with no `body` tag parses to a forest with no `body` element.
Entity references are not modelled (no input considered here contains
them). -/
def parseNodes : Nat → List Char → Option String → (NodeList × List Char)
  | 0, cs, _ => (.nil, cs)
  | _ + 1, [], _ => (.nil, [])
  | fuel + 1, '<' :: cs, stop =>
      match cs with
      | '/' :: rest =>
          let name := lowerStr ⟨rest.takeWhile isNameChar⟩
          let rest2 := ((rest.dropWhile isNameChar).dropWhile (fun d => d ≠ '>')).drop 1
          if some name = stop then (.nil, rest2)
          else parseNodes fuel rest2 stop
      | '!' :: rest =>
          match rest with
          | '-' :: '-' :: rest2 => parseNodes fuel (skipComment fuel rest2) stop
          | _ => parseNodes fuel ((rest.dropWhile (fun d => d ≠ '>')).drop 1) stop
      | '?' :: rest => parseNodes fuel ((rest.dropWhile (fun d => d ≠ '>')).drop 1) stop
      | c :: rest =>
          if c.isAlpha then
            let name := lowerStr ⟨c :: rest.takeWhile isNameChar⟩
            let rest1 := rest.dropWhile isNameChar
            match scanAttrs fuel rest1 [] with
            | (attrs, selfClose, rest2) =>
                if selfClose || name ∈ voidTags then
                  let (sibs, rest3) := parseNodes fuel rest2 stop
                  (.cons (.elem name attrs .nil) sibs, rest3)
                else
                  let (children, rest3) := parseNodes fuel rest2 (some name)
                  let (sibs, rest4) := parseNodes fuel rest3 stop
                  (.cons (.elem name attrs children) sibs, rest4)
          else
            let (sibs, rest2) := parseNodes fuel (cs.dropWhile (fun d => d ≠ '<')) stop
            (consText ('<' :: cs.takeWhile (fun d => d ≠ '<')) sibs, rest2)
      | [] => (.cons (.text "<") .nil, [])
  | fuel + 1, c :: cs, stop =>
      let txt := c :: cs.takeWhile (fun d => d ≠ '<')
      let (sibs, rest) := parseNodes fuel (cs.dropWhile (fun d => d ≠ '<')) stop
      (consText txt sibs, rest)
def skipComment : Nat → List Char → List Char
  | 0, cs => cs
  | _ + 1, [] => []
  | fuel + 1, c :: cs =>
      match c, cs with
      | '-', '-' :: '>' :: rest => rest
      | _, _ => skipComment fuel cs
def consText (txt : List Char) (ns : NodeList) : NodeList :=
  .cons (.text ⟨txt⟩) ns
end

/-- Parse an HTML string into a DOM forest with the lenient parser. -/
def parseHTML (s : String) : NodeList :=
  (parseNodes (s.length + 1) s.data none).1

/-! ## Serialization (BeautifulSoup `str(tag)` / lxml `tostring`) -/

def escapeHtmlText (s : String) : String :=
  ⟨s.data.flatMap (fun c =>
    if c = '&' then "&amp;".data
    else if c = '<' then "&lt;".data
    else if c = '>' then "&gt;".data
    else [c])⟩

def escapeHtmlAttr (s : String) : String :=
  ⟨s.data.flatMap (fun c =>
    if c = '&' then "&amp;".data
    else if c = '"' then "&quot;".data
    else [c])⟩

def serializeAttrs (attrs : List Attr) : String :=
  match attrs with
  | [] => ""
  | (n, v) :: rest => " " ++ n ++ "=\"" ++ escapeHtmlAttr v ++ "\"" ++ serializeAttrs rest

mutual
/-- Serialization of a DOM node back to markup, modelling `str(tag)` of
BeautifulSoup (used at line 52 of `s1.py`) and, up to the whitespace that
`pretty_print` adds, lxml's `tostring`: void elements self-close, other
elements carry an end tag, text and attribute values are entity-escaped.
Indentation from `pretty_print=True` is not modelled (it is whitespace
only). -/
def serializeNode : Node → String
  | .text s => escapeHtmlText s
  | .elem t a ch =>
      if t ∈ voidTags then "<" ++ t ++ serializeAttrs a ++ "/>"
      else "<" ++ t ++ serializeAttrs a ++ ">" ++ serializeList ch ++ "</" ++ t ++ ">"
def serializeList : NodeList → String
  | .nil => ""
  | .cons n rest => serializeNode n ++ serializeList rest
end

/-! ## Content Locator (`extract_main_content`, lines 25-52) -/

/-- The CSS selector forms used by `main_selectors` in `s1.py`: a tag
selector (`main`, `article`, `body`), a class selector (`.main`,
`.content`) and an id selector (`#main`, `#content`). -/
inductive Sel where
  | tagSel (t : String)
  | classSel (c : String)
  | idSel (i : String)
deriving Repr, DecidableEq

/-- Whether a node matches a selector (soupsieve semantics: a class
selector matches when the name is one of the whitespace-separated tokens
of the `class` attribute, an id selector when the `id` attribute equals
the name; text nodes match nothing). -/
def selMatches (s : Sel) (n : Node) : Bool :=
  match s, n with
  | .tagSel t, .elem tg _ _ => tg == t
  | .classSel c, .elem _ a _ =>
      match attrLookup a "class" with
      | some cv => (pySplitWs cv).contains c
      | none => false
  | .idSel i, .elem _ a _ => attrLookup a "id" == some i
  | _, .text _ => false

/-- The fixed priority list of lines 33-40 of `s1.py`:
`['main', 'article', '.main', '#main', '.content', '#content']`. -/
def main_selectors : List Sel :=
  [.tagSel "main", .tagSel "article", .classSel "main",
   .idSel "main", .classSel "content", .idSel "content"]

mutual
/-- BeautifulSoup `soup.select_one(selector)` on a subtree: the first
matching element in document order (preorder), or `None`. -/
def selectNode (s : Sel) (n : Node) : Option Node :=
  match n with
  | .text _ => none
  | .elem t a ch =>
      if selMatches s (.elem t a ch) then some (.elem t a ch) else selectList s ch
def selectList (s : Sel) : NodeList → Option Node
  | .nil => none
  | .cons n rest =>
      match selectNode s n with
      | some d => some d
      | none => selectList s rest
end

/-- `soup.select_one(selector)` over the whole soup. -/
def select_one (s : Sel) (soup : NodeList) : Option Node := selectList s soup

/-- The `for selector in main_selectors: ... break` loop of lines 43-46:
after the loop, `main_div` is the result of the first selector that
matched (a BeautifulSoup `Tag` is always truthy), and `None` if none
matched. -/
def selLoop : List Sel → NodeList → Option Node
  | [], _ => none
  | s :: rest, soup =>
      match select_one s soup with
      | some d => some d
      | none => selLoop rest soup

/-- `soup.find('body')`: first `body` element in document order. -/
def find_body (soup : NodeList) : Option Node := selectList (.tagSel "body") soup

/-- Lines 42-52 of `extract_main_content` at the DOM level: the selector
loop, then the `if not main_div: main_div = soup.find('body')` fallback,
then `main_div if main_div else None`. -/
def locateDom (soup : NodeList) : Option Node :=
  match selLoop main_selectors soup with
  | some d => some d
  | none => find_body soup

/-- `extract_main_content` (lines 25-52): parse with the lenient parser,
locate, and return `str(main_div)`, or `None` when nothing was located. -/
def extract_main_content (html_content : String) : Option String :=
  (locateDom (parseHTML html_content)).map serializeNode

mutual
/-- Preorder (document-order) listing of all element nodes of a forest:
the order in which `select_one`/`find` visit candidates. -/
def documentOrderN : Node → List Node
  | .text _ => []
  | .elem t a ch => .elem t a ch :: documentOrderL ch
def documentOrderL : NodeList → List Node
  | .nil => []
  | .cons n rest => documentOrderN n ++ documentOrderL rest
end

/-- The Locator as section 4.1 of the spec words it: try each selector
rule in the fixed priority order and return the first rule's first match
in document order; if no rule matches fall back to the document's `body`;
if that is absent too the result is `Absent` (`none`). -/
def specLocate (soup : NodeList) : Option Node :=
  match main_selectors.findSome? (fun s => (documentOrderL soup).find? (selMatches s)) with
  | some d => some d
  | none => (documentOrderL soup).find? (fun n => tagOf n == "body")

/-! ## Sanitizer (`clean_html`, lines 54-72) -/

/-- Tags the configured `lxml.html.clean.Cleaner` drops together with
their whole subtree (`drop_tree`): `script` (scripts=True default),
`style` (style=True), `link` (links=True — note this is the stylesheet
`<link>` tag, not anchors), `meta` (meta=True), `applet` (embedded=True),
`button`/`input`/`select`/`textarea` (forms=True) and the frame tags
(frames=True). -/
def killTags : List String :=
  ["script", "style", "link", "meta", "applet",
   "button", "input", "select", "textarea",
   "frame", "frameset", "noframes"]

/-- Tags the Cleaner unwraps (`drop_tag`): the element goes away but its
children are pulled up into the parent: `form` (forms=True),
`iframe`/`embed`/`layer`/`object`/`param` (embedded=True),
`blink`/`marquee` (annoying_tags=True).  With `page_structure=False`,
`html`/`head`/`title` are NOT removed. -/
def removeTags : List String :=
  ["form", "iframe", "embed", "layer", "object", "param", "blink", "marquee"]

/-- The tags `lxml.html.defs.tags` knows; with `remove_unknown_tags=True`
(the default) any other tag is unwrapped like `removeTags`, its text
pulled up.  (`main` is absent from lxml's list.) -/
def knownTags : List String :=
  ["html", "head", "title", "body", "div", "span", "p", "a", "b", "i",
   "em", "strong", "u", "s", "small", "sub", "sup", "ul", "ol", "li",
   "dl", "dt", "dd", "h1", "h2", "h3", "h4", "h5", "h6", "br", "hr",
   "img", "table", "caption", "thead", "tbody", "tfoot", "tr", "td",
   "th", "col", "colgroup", "pre", "code", "kbd", "samp", "var", "cite",
   "abbr", "address", "blockquote", "q", "dfn", "mark", "time", "area",
   "map", "label", "legend", "fieldset", "article", "section", "nav",
   "aside", "header", "footer", "figure", "figcaption", "audio", "video",
   "source", "canvas", "details", "summary", "wbr"]

/-- The nofollow test `lxml` performs before annotating an anchor:
`'nofollow' in rel and ' nofollow ' in (' %s ' % rel)`. -/
def relHasNofollow (r : String) : Bool :=
  decide ("nofollow".data <:+: r.data) && decide ((" nofollow ").data <:+: (" " ++ r ++ " ").data)

/-- The external-link test of `lxml`'s `_find_external_links` XPath: the
anchor has an `href` whose normalized text is non-empty and does not
start with `#`. -/
def externalHref (attrs : List Attr) : Bool :=
  match attrLookup attrs "href" with
  | some h => (pyStrip h).data ≠ [] && !("#".data.isPrefixOf (pyStrip h).data)
  | none => false

/-- An attribute the configured Cleaner keeps: not `style`
(`inline_style`) and not an `on*` event handler (`javascript=True`). -/
def attrKept (p : Attr) : Bool := !(p.1 = "style" || "on".data.isPrefixOf p.1.data)

/-- `add_nofollow` on one anchor: set `rel` to `nofollow`, appending to an
existing `rel` value unless it already carries the token. -/
def setNofollow (attrs : List Attr) : List Attr :=
  match attrLookup attrs "rel" with
  | none => attrs ++ [("rel", "nofollow")]
  | some r =>
      if relHasNofollow r then attrs
      else attrs.map (fun p => if p.1 = "rel" then (p.1, r ++ " nofollow") else p)

/-- The attribute work of the configured Cleaner on one element:
`javascript=True` deletes every `on*` event attribute,
`inline_style` (defaulting to `style=True`) deletes `style` attributes,
and `add_nofollow=True` annotates anchors with an external `href`.
(`safe_attrs_only=False`, so no other attribute is touched; the
`javascript:` URL rewriting is not modelled — no claim concerns it.) -/
def cleanAttrs (tag : String) (attrs : List Attr) : List Attr :=
  if tag == "a" && externalHref (attrs.filter attrKept)
  then setNofollow (attrs.filter attrKept)
  else attrs.filter attrKept

mutual
/-- The tree walk of the configured Cleaner (`cleaner.clean_html(tree)`
at line 71): kill-tags disappear with their content, remove-tags and
unknown tags are unwrapped (children pulled up), surviving elements keep
their (cleaned) attributes and cleaned children; text is untouched. -/
def cleanNode : Node → NodeList
  | .text s => .cons (.text s) .nil
  | .elem t a ch =>
      if t ∈ killTags then .nil
      else if t ∈ removeTags ∨ t ∉ knownTags then cleanList ch
      else .cons (.elem t (cleanAttrs t a) (cleanList ch)) .nil
def cleanList : NodeList → NodeList
  | .nil => .nil
  | .cons n rest => cleanNode n ++ cleanList rest
end

/-- A Python exception value (`lxml.etree.ParserError` is the one the
sanitizer can raise). -/
inductive PyErr where
  | parserError (msg : String)
deriving Repr, DecidableEq

/-- Outcome of running a Python function: a normal return or an exception
propagating to the caller. -/
inductive PyResult (α : Type) where
  | returns (a : α)
  | raises (e : PyErr)
deriving Repr, DecidableEq

/-- Whitespace-only text node (stray whitespace that
`lxml.html.fromstring` does not keep around its single root). -/
def isWsText : Node → Bool
  | .text s => s.data.all isPySpace
  | .elem _ _ _ => false

def NodeList.toList : NodeList → List Node
  | .nil => []
  | .cons n rest => n :: rest.toList

/-- Modelled behavior of `lxml.html.fromstring` on the strings this
pipeline feeds it: if parsing finds no content at all (empty or
whitespace-only input) libxml2 produces no root and lxml raises
`ParserError('Document is empty')`, modelled as `none`; a single element
(ignoring stray whitespace around it) is returned as the root; several
top-level fragments are wrapped in a `div`, as `fromstring` does for
multi-fragment input. -/
def fromstring (s : String) : Option Node :=
  let ns := parseHTML s
  match ns.toList.filter (fun n => !isWsText n) with
  | [] => none
  | [Node.elem t a ch] => some (.elem t a ch)
  | _ => some (.elem "div" [] ns)

/-- `lxml.html.tostring(tree, pretty_print=True, encoding='unicode')`:
serialize the tree; `pretty_print` terminates the output with a newline
(its inner indentation, whitespace only, is not modelled). -/
def tostring (n : Node) : String := serializeNode n ++ "\n"

/-- The Cleaner applied to the root element returned by `fromstring`.
lxml cleans in place and never deletes the root node itself; if the root
is a kill/remove/unknown tag the cleaned children survive under the root
(modelled with the root's tag unless it is killable, `div` otherwise). -/
def cleanRoot (n : Node) : Node :=
  match cleanNode n with
  | .cons m _ => m
  | .nil =>
      match n with
      | .elem _ _ ch => .elem "div" [] (cleanList ch)
      | .text s => .text s

/-- `clean_html` (lines 54-72): empty string short-circuits to `""`
(line 58, `if not html_string`); otherwise `html.fromstring` parses (and
raises on irrecoverably content-free input — there is no try/except, so
the exception propagates), the Cleaner runs, and the result is
re-serialized. -/
def clean_html (html_string : String) : PyResult String :=
  if html_string.isEmpty then .returns ""
  else
    match fromstring html_string with
    | none => .raises (.parserError "Document is empty")
    | some tree => .returns (tostring (cleanRoot tree))

/-! ## Markdown Transformer (`convert_to_markdown_with_details`, lines 74-93) -/

def isSpTab (c : Char) : Bool := c = ' ' || c = '\t'

/-- markdownify's `whitespace_re` (`[\t ]+`) collapsing of runs of spaces
and tabs to a single space, applied to text nodes by `process_text`. -/
def collapseWsL : List Char → List Char
  | [] => []
  | [c] => if isSpTab c then [' '] else [c]
  | c :: d :: cs =>
      if isSpTab c then
        if isSpTab d then collapseWsL (d :: cs) else ' ' :: collapseWsL (d :: cs)
      else c :: collapseWsL (d :: cs)

/-- markdownify's `escape` with the options `s1.py` passes:
`escape_underscores=False` is given explicitly, `escape_asterisks=True` is
the default, so exactly `*` is backslash-escaped. -/
def escapeMd (s : String) : String :=
  ⟨s.data.flatMap (fun c => if c = '*' then ['\\', '*'] else [c])⟩

/-- markdownify's `process_text` on a text node: whitespace run collapsing
then escaping.  (The `pre`/`code`-ancestor exemptions are not modelled;
they only disable these whitespace/escape tweaks.) -/
def process_text (s : String) : String := escapeMd ⟨collapseWsL s.data⟩

/-- markdownify's `chomp`: flanking spaces are moved outside inline
markup, the wrapped text is stripped. -/
def chomp (s : String) : String × String × String :=
  let pre := if s.data.head? = some ' ' then " " else ""
  let suf := if s.data.getLast? = some ' ' then " " else ""
  (pre, suf, pyStrip s)

def replicateStr (n : Nat) (c : Char) : String := ⟨List.replicate n c⟩

/-- markdownify's `underline` helper: Setext heading rendering used by the
default `heading_style='underlined'`. -/
def underline (text : String) (pad : Char) : String :=
  let t : String := ⟨rstripL text.data⟩
  if t.data = [] then "" else t ++ "\n" ++ replicateStr t.data.length pad ++ "\n\n"

def isHeadingTag (t : String) : Bool := t ∈ ["h1", "h2", "h3", "h4", "h5", "h6"]

def headingLevel (t : String) : Nat :=
  if t = "h1" then 1 else if t = "h2" then 2 else if t = "h3" then 3
  else if t = "h4" then 4 else if t = "h5" then 5 else 6

/-- markdownify's `convert_hn`.  `s1.py` passes a `substitutions` keyword
mapping each heading to a run of `#` shifted one deeper, but markdownify
has no such option: unknown keywords land in the options dictionary and
are consulted by nothing, so the DEFAULT `heading_style='underlined'`
governs: `h1`/`h2` render as Setext headings (`=`/`-` underlines) and
`h3`..`h6` render with exactly their own number of `#`. -/
def convert_hn (n : Nat) (inline : Bool) (text : String) : String :=
  if inline then text
  else
    let t := pyStrip text
    if n ≤ 2 then underline t (if n = 1 then '=' else '-')
    else replicateStr n '#' ++ " " ++ t ++ "\n\n"

/-- markdownify's `abstract_inline_conversion` (bold `**`, emphasis `*`):
chomp, drop when empty, wrap. -/
def inlineWrap (markup : String) (text : String) : String :=
  match chomp text with
  | (pre, suf, core) =>
      if core.data = [] then "" else pre ++ markup ++ core ++ markup ++ suf

def escapeQuotes (s : String) : String :=
  ⟨s.data.flatMap (fun c => if c = '"' then ['\\', '"'] else [c])⟩

/-- markdownify's `convert_a` with `autolinks=True` (default): `<href>`
shorthand when the link text equals its target and there is no title,
otherwise `[text](href "title")`; without an `href` the text passes
through. -/
def convert_a (attrs : List Attr) (text : String) : String :=
  match chomp text with
  | (pre, suf, core) =>
      if core.data = [] then ""
      else
        let title := match attrLookup attrs "title" with
          | some ti => if ti.data = [] then none else some ti
          | none => none
        match attrLookup attrs "href" with
        | none => core
        | some href =>
            match title with
            | none =>
                if core == href then "<" ++ href ++ ">"
                else pre ++ "[" ++ core ++ "](" ++ href ++ ")" ++ suf
            | some ti =>
                pre ++ "[" ++ core ++ "](" ++ href ++ " \"" ++ escapeQuotes ti ++ "\")" ++ suf

/-- Dispatch on the tag's `convert_<tag>` method, covering the element
vocabulary the converted fragments use (`h1`..`h6`, `p`, bold, emphasis,
anchors, `br` with the default `newline_style='spaces'`); a tag without a
conversion passes its (converted) child text through unchanged, which is
markdownify's behavior for unmapped tags. -/
def applyTag (inline : Bool) (tag : String) (attrs : List Attr) (text : String) : String :=
  if isHeadingTag tag then convert_hn (headingLevel tag) inline text
  else if tag = "p" then (if inline then text else if text.data = [] then "" else text ++ "\n\n")
  else if tag = "b" ∨ tag = "strong" then inlineWrap "**" text
  else if tag = "em" ∨ tag = "i" then inlineWrap "*" text
  else if tag = "a" then convert_a attrs text
  else if tag = "br" then (if inline then "" else "  \n")
  else text

def stripNlLeft (s : String) : String := ⟨s.data.dropWhile (fun c => c = '\n')⟩

def stripNlRight (s : String) : String := ⟨(s.data.reverse.dropWhile (fun c => c = '\n')).reverse⟩

/-- markdownify's newline coalescing between a block child and the text
accumulated so far in `process_tag`: trailing and leading newlines are
merged to the larger of the two runs. -/
def mergeBlock (acc next : String) : String :=
  let a := stripNlRight acc
  let b := stripNlLeft next
  let nl := max (acc.data.length - a.data.length) (next.data.length - b.data.length)
  a ++ replicateStr nl '\n' ++ b

mutual
/-- markdownify's `process_tag` on one element: convert the children
(heading content is converted inline, as `process_tag` does for
`h1`..`h6`), then apply the tag's conversion. -/
def convertNode (inline : Bool) : Node → String
  | .text s => process_text s
  | .elem t a ch => applyTag inline t a (convertChildren (inline || isHeadingTag t) "" ch)
/-- The children loop of `process_tag`: text children are appended via
`process_text`, element children are merged with newline coalescing. -/
def convertChildren (inline : Bool) (acc : String) : NodeList → String
  | .nil => acc
  | .cons n rest =>
      match n with
      | .text s => convertChildren inline (acc ++ process_text s) rest
      | .elem _ _ _ => convertChildren inline (mergeBlock acc (convertNode inline n)) rest
end

/-- `markdownify.MarkdownConverter(escape_underscores=False,
substitutions=[...]).convert(html_string)`: parse with the lenient parser
and run the soup's children through `process_tag`.  The `substitutions`
keyword is not a markdownify option and has no effect. -/
def markdownify_convert (html : String) : String :=
  convertChildren false "" (parseHTML html)

/-- `convert_to_markdown_with_details` (lines 74-93): empty string
short-circuits to `""` (line 79), otherwise markdownify converts. -/
def convert_to_markdown_with_details (html_string : String) : String :=
  if html_string.isEmpty then "" else markdownify_convert html_string

/-! ## Pipeline Orchestrator (`scrape_robustly`, lines 95-119) -/

/-- The pipeline stages that can run after the fetch. -/
inductive Stage where
  | locate
  | sanitize
  | transform
deriving Repr, DecidableEq

/-- `scrape_robustly` from the point the fetched page source is in hand
(the Playwright fetch of lines 8-23 is external I/O; its result — `None`
on a fetch error, the page source otherwise — is this function's
argument).  Mirrors lines 102-119: a falsy page source (`None` or the
empty string, line 102's `if not html_with_js`) short-circuits to the
fetch-failure sentinel; `None` from the locator yields the no-content
sentinel; `clean_html` may raise and nothing catches the exception;
otherwise the transformer's output is returned. -/
def scrape_robustly_from (html_with_js : Option String) : PyResult String :=
  match html_with_js with
  | none => .returns "Failed to fetch content."
  | some h =>
      if h.isEmpty then .returns "Failed to fetch content."
      else
        match extract_main_content h with
        | none => .returns "Could not identify main content."
        | some main_content_html =>
            match clean_html main_content_html with
            | .raises e => .raises e
            | .returns cleaned => .returns (convert_to_markdown_with_details cleaned)

/-- `scrape_robustly` instrumented with the list of pipeline stages that
actually ran (ghost state for the halting claims; the result component
coincides with `scrape_robustly_from`). -/
def scrapeTraced (html_with_js : Option String) : List Stage × PyResult String :=
  match html_with_js with
  | none => ([], .returns "Failed to fetch content.")
  | some h =>
      if h.isEmpty then ([], .returns "Failed to fetch content.")
      else
        match extract_main_content h with
        | none => ([.locate], .returns "Could not identify main content.")
        | some main_content_html =>
            match clean_html main_content_html with
            | .raises e => ([.locate, .sanitize], .raises e)
            | .returns cleaned =>
                ([.locate, .sanitize, .transform],
                 .returns (convert_to_markdown_with_details cleaned))

/-! ## Observation functions used to state the claims -/

mutual
/-- Concatenation of all text nodes of a forest, in document order. -/
def textContentN : Node → String
  | .text s => s
  | .elem _ _ ch => textContentL ch
def textContentL : NodeList → String
  | .nil => ""
  | .cons n rest => textContentN n ++ textContentL rest
end

mutual
/-- The text the Sanitizer is meant to keep, per the spec's words: text
inside a dropped-with-content tag (`script`, `style`, ...) is gone,
sibling text remains. -/
def keptTextN : Node → String
  | .text s => s
  | .elem t _ ch => if t ∈ killTags then "" else keptTextL ch
def keptTextL : NodeList → String
  | .nil => ""
  | .cons n rest => keptTextN n ++ keptTextL rest
end

/-- The non-whitespace characters of a string, in order (used to state
that every text node appears in the output in document order, whitespace
aside). -/
def visChars (s : String) : List Char := s.data.filter (fun c => !isPySpace c)

mutual
/-- Void elements are childless — an invariant of every DOM the lenient
parser produces (`br` is the void element whose markdownify conversion
ignores child text, so the text-preservation claim is stated for forests
satisfying this parse-shape invariant). -/
def voidsOkN : Node → Bool
  | .text _ => true
  | .elem t _ ch =>
      (if t ∈ voidTags then (match ch with | .nil => true | .cons _ _ => false) else true)
        && voidsOkL ch
def voidsOkL : NodeList → Bool
  | .nil => true
  | .cons n rest => voidsOkN n && voidsOkL rest
end

/-- The attribute list of a node (text nodes have none). -/
def attrsOf : Node → List Attr
  | .text _ => []
  | .elem _ a _ => a

/-- The nofollow annotation property of one node: if it is a hyperlink
with an external `href`, its `rel` attribute carries the `nofollow`
token. -/
def anchorNofollowOk (m : Node) : Prop :=
  tagOf m = "a" → externalHref (attrsOf m) = true →
    ∃ r, attrLookup (attrsOf m) "rel" = some r ∧ relHasNofollow r = true

/-! ## Basic forest lemmas -/

@[simp] theorem NodeList.nil_append (ms : NodeList) : NodeList.nil ++ ms = ms := rfl

@[simp] theorem NodeList.cons_append (n : Node) (ns ms : NodeList) :
    NodeList.cons n ns ++ ms = NodeList.cons n (ns ++ ms) := rfl

/-- Plain structural induction on `NodeList` (the mutual recursor of the
nested DOM type is inconvenient for the `induction` tactic). -/
theorem NodeList.indOn {motive : NodeList → Prop} (h0 : motive .nil)
    (h1 : ∀ n ns, motive ns → motive (.cons n ns)) : ∀ ns, motive ns
  | .nil => h0
  | .cons n ns => h1 n ns (NodeList.indOn h0 h1 ns)

@[simp] theorem NodeList.append_nil (ns : NodeList) : ns ++ NodeList.nil = ns := by
  induction ns using NodeList.indOn with
  | h0 => rfl
  | h1 n ns ih => simp [ih]

theorem NodeList.append_assoc (a b c : NodeList) : a ++ b ++ c = a ++ (b ++ c) := by
  induction a using NodeList.indOn with
  | h0 => rfl
  | h1 n ns ih => simp [ih]

/-! ## Attribute lemmas for the Sanitizer -/

theorem attrLookup_append (a b : List Attr) (name : String) :
    attrLookup (a ++ b) name = (attrLookup a name).or (attrLookup b name) := by
  induction a with
  | nil => simp [attrLookup]
  | cons p rest ih =>
      by_cases h : p.1 = name
      · simp [attrLookup, h]
      · simp [attrLookup, h, ih]

theorem attrLookup_map_rel (k : List Attr) (v' : String) (name : String) (h : name ≠ "rel") :
    attrLookup (k.map (fun p => if p.1 = "rel" then (p.1, v') else p)) name
      = attrLookup k name := by
  induction k with
  | nil => rfl
  | cons p rest ih =>
      obtain ⟨n, v⟩ := p
      simp only [List.map_cons]
      by_cases hr : n = "rel"
      · have hne : ¬ n = name := by rw [hr]; exact fun hh => h hh.symm
        show attrLookup ((if n = "rel" then (n, v') else (n, v)) :: _) name = _
        rw [if_pos hr]
        show (if n = name then some v' else _) = (if n = name then some v else _)
        rw [if_neg hne, if_neg hne, ih]
      · show attrLookup ((if n = "rel" then (n, v') else (n, v)) :: _) name = _
        rw [if_neg hr]
        show (if n = name then some v else _) = (if n = name then some v else _)
        by_cases hn : n = name
        · rw [if_pos hn, if_pos hn]
        · rw [if_neg hn, if_neg hn, ih]

theorem attrLookup_map_rel_rel (k : List Attr) (v' : String) :
    attrLookup (k.map (fun p => if p.1 = "rel" then (p.1, v') else p)) "rel"
      = (attrLookup k "rel").map (fun _ => v') := by
  induction k with
  | nil => rfl
  | cons p rest ih =>
      obtain ⟨n, v⟩ := p
      simp only [List.map_cons]
      by_cases hr : n = "rel"
      · show attrLookup ((if n = "rel" then (n, v') else (n, v)) :: _) "rel" = _
        rw [if_pos hr]
        show (if n = "rel" then some v' else _) = Option.map _ (if n = "rel" then some v else _)
        rw [if_pos hr, if_pos hr]
        rfl
      · show attrLookup ((if n = "rel" then (n, v') else (n, v)) :: _) "rel" = _
        rw [if_neg hr]
        show (if n = "rel" then some v else _) = Option.map _ (if n = "rel" then some v else _)
        rw [if_neg hr, if_neg hr, ih]

theorem relHasNofollow_append (r : String) : relHasNofollow (r ++ " nofollow") = true := by
  have h1 : "nofollow".data <:+: (r ++ " nofollow").data := by
    rw [String.data_append]
    refine ⟨r.data ++ [' '], [], ?_⟩
    simp
  have h2 : (" nofollow ").data <:+: (" " ++ (r ++ " nofollow") ++ " ").data := by
    simp only [String.data_append]
    refine ⟨' ' :: r.data, [], ?_⟩
    simp
  unfold relHasNofollow
  rw [decide_eq_true h1, decide_eq_true h2]
  rfl

theorem setNofollow_lookup_rel (k : List Attr) :
    ∃ r, attrLookup (setNofollow k) "rel" = some r ∧ relHasNofollow r = true := by
  unfold setNofollow
  cases hk : attrLookup k "rel" with
  | none =>
      refine ⟨"nofollow", ?_, by decide⟩
      rw [attrLookup_append, hk]
      rfl
  | some r =>
      by_cases hr : relHasNofollow r
      · exact ⟨r, by simp [hr, hk], hr⟩
      · refine ⟨r ++ " nofollow", ?_, relHasNofollow_append r⟩
        simp only [hr]
        rw [if_neg (by simp [hr]), attrLookup_map_rel_rel, hk]
        rfl

theorem setNofollow_lookup_ne (k : List Attr) (name : String) (h : name ≠ "rel") :
    attrLookup (setNofollow k) name = attrLookup k name := by
  unfold setNofollow
  cases hk : attrLookup k "rel" with
  | none =>
      rw [attrLookup_append]
      have hx : attrLookup [("rel", "nofollow")] name = none := by
        simp [attrLookup, Ne.symm h]
      rw [hx, Option.or_none]
  | some r =>
      by_cases hr : relHasNofollow r
      · simp [hr]
      · simp only [hr]
        rw [if_neg (by simp [hr]), attrLookup_map_rel _ _ _ h]

theorem externalHref_setNofollow (k : List Attr) :
    externalHref (setNofollow k) = externalHref k := by
  unfold externalHref
  rw [setNofollow_lookup_ne k "href" (by decide)]

theorem setNofollow_noop (k : List Attr) (r : String) (h : attrLookup k "rel" = some r)
    (hnf : relHasNofollow r = true) : setNofollow k = k := by
  unfold setNofollow
  rw [h]
  show (if relHasNofollow r = true then k
        else k.map (fun p => if p.1 = "rel" then (p.1, r ++ " nofollow") else p)) = k
  rw [if_pos hnf]

theorem setNofollow_idem (k : List Attr) : setNofollow (setNofollow k) = setNofollow k := by
  obtain ⟨r, hr, hnf⟩ := setNofollow_lookup_rel k
  exact setNofollow_noop _ r hr hnf

theorem attrKept_map_rel (v' : String) (p : Attr) :
    attrKept (if p.1 = "rel" then (p.1, v') else p) = attrKept p := by
  by_cases h : p.1 = "rel"
  · rw [if_pos h]
    rfl
  · rw [if_neg h]

theorem filter_map_rel (v' : String) (k : List Attr) :
    (k.map (fun p => if p.1 = "rel" then (p.1, v') else p)).filter attrKept
      = (k.filter attrKept).map (fun p => if p.1 = "rel" then (p.1, v') else p) := by
  induction k with
  | nil => rfl
  | cons p rest ih =>
      simp only [List.map_cons, List.filter_cons, attrKept_map_rel]
      cases h : attrKept p <;> simp [h, ih]

theorem filter_attrKept_idem (a : List Attr) :
    (a.filter attrKept).filter attrKept = a.filter attrKept := by
  rw [List.filter_filter]
  simp only [Bool.and_self]

theorem filter_attrKept_setNofollow (k : List Attr) (h : k.filter attrKept = k) :
    (setNofollow k).filter attrKept = setNofollow k := by
  unfold setNofollow
  cases hk : attrLookup k "rel" with
  | none =>
      rw [List.filter_append, h]
      congr 1
  | some r =>
      show (List.filter attrKept
        (if relHasNofollow r = true then k
         else k.map (fun p => if p.1 = "rel" then (p.1, r ++ " nofollow") else p)))
        = (if relHasNofollow r = true then k
           else k.map (fun p => if p.1 = "rel" then (p.1, r ++ " nofollow") else p))
      by_cases hnf : relHasNofollow r
      · rw [if_pos hnf]
        exact h
      · rw [if_neg hnf]
        rw [filter_map_rel, h]

theorem cleanAttrs_idem (t : String) (a : List Attr) :
    cleanAttrs t (cleanAttrs t a) = cleanAttrs t a := by
  unfold cleanAttrs
  by_cases hc : (t == "a" && externalHref (a.filter attrKept)) = true
  · rw [if_pos hc]
    have hf : (setNofollow (a.filter attrKept)).filter attrKept
        = setNofollow (a.filter attrKept) :=
      filter_attrKept_setNofollow _ (filter_attrKept_idem a)
    rw [hf, externalHref_setNofollow]
    rw [if_pos hc]
    exact setNofollow_idem _
  · rw [if_neg hc, filter_attrKept_idem]
    rw [if_neg hc]

theorem cleanList_append (a b : NodeList) :
    cleanList (a ++ b) = cleanList a ++ cleanList b := by
  induction a using NodeList.indOn with
  | h0 => rfl
  | h1 n ns ih =>
      show cleanNode n ++ cleanList (ns ++ b) = (cleanNode n ++ cleanList ns) ++ cleanList b
      rw [ih, NodeList.append_assoc]

theorem clean_idem_all :
    (∀ n, cleanList (cleanNode n) = cleanNode n)
      ∧ (∀ ns, cleanList (cleanList ns) = cleanList ns) := by
  apply cleanNode.mutual_induct
  · intro s
    rfl
  · intro t a ch hk
    have h : cleanNode (Node.elem t a ch) = NodeList.nil := by
      unfold cleanNode
      rw [if_pos hk]
    rw [h]
    rfl
  · intro t a ch hk hru ih
    have h : cleanNode (Node.elem t a ch) = cleanList ch := by
      unfold cleanNode
      rw [if_neg hk, if_pos hru]
    rw [h, ih]
  · intro t a ch hk hru ih
    have h : cleanNode (Node.elem t a ch)
        = NodeList.cons (Node.elem t (cleanAttrs t a) (cleanList ch)) NodeList.nil := by
      unfold cleanNode
      rw [if_neg hk, if_neg hru]
    rw [h]
    show cleanNode (Node.elem t (cleanAttrs t a) (cleanList ch)) ++ cleanList NodeList.nil
        = NodeList.cons (Node.elem t (cleanAttrs t a) (cleanList ch)) NodeList.nil
    have h2 : cleanNode (Node.elem t (cleanAttrs t a) (cleanList ch))
        = NodeList.cons (Node.elem t (cleanAttrs t (cleanAttrs t a)) (cleanList (cleanList ch)))
            NodeList.nil := by
      unfold cleanNode
      rw [if_neg hk, if_neg hru]
    rw [h2, cleanAttrs_idem, ih]
    rfl
  · rfl
  · intro n ns ih1 ih2
    show cleanList (cleanNode n ++ cleanList ns) = cleanNode n ++ cleanList ns
    rw [cleanList_append, ih1, ih2]

theorem textContentL_append (a b : NodeList) :
    textContentL (a ++ b) = textContentL a ++ textContentL b := by
  induction a using NodeList.indOn with
  | h0 =>
      show textContentL b = "" ++ textContentL b
      simp
  | h1 n ns ih =>
      show textContentN n ++ textContentL (ns ++ b)
          = (textContentN n ++ textContentL ns) ++ textContentL b
      rw [ih, String.append_assoc]

theorem documentOrderL_append (a b : NodeList) :
    documentOrderL (a ++ b) = documentOrderL a ++ documentOrderL b := by
  induction a using NodeList.indOn with
  | h0 => rfl
  | h1 n ns ih =>
      show documentOrderN n ++ documentOrderL (ns ++ b)
          = (documentOrderN n ++ documentOrderL ns) ++ documentOrderL b
      rw [ih, List.append_assoc]

theorem clean_text_all :
    (∀ n, textContentL (cleanNode n) = keptTextN n
        ∧ ∀ m ∈ documentOrderL (cleanNode n), tagOf m ∉ killTags)
      ∧ (∀ ns, textContentL (cleanList ns) = keptTextL ns
        ∧ ∀ m ∈ documentOrderL (cleanList ns), tagOf m ∉ killTags) := by
  apply cleanNode.mutual_induct
  · intro s
    constructor
    · show s ++ "" = s
      simp
    · intro m hm
      simp [documentOrderN, documentOrderL] at hm
  · intro t a ch hk
    have h : cleanNode (Node.elem t a ch) = NodeList.nil := by
      unfold cleanNode
      rw [if_pos hk]
    rw [h]
    constructor
    · show "" = keptTextN (Node.elem t a ch)
      unfold keptTextN
      rw [if_pos hk]
    · intro m hm
      simp [documentOrderL] at hm
  · intro t a ch hk hru ih
    have h : cleanNode (Node.elem t a ch) = cleanList ch := by
      unfold cleanNode
      rw [if_neg hk, if_pos hru]
    rw [h]
    constructor
    · rw [ih.1]
      show keptTextL ch = keptTextN (Node.elem t a ch)
      unfold keptTextN
      rw [if_neg hk]
    · exact ih.2
  · intro t a ch hk hru ih
    have h : cleanNode (Node.elem t a ch)
        = NodeList.cons (Node.elem t (cleanAttrs t a) (cleanList ch)) NodeList.nil := by
      unfold cleanNode
      rw [if_neg hk, if_neg hru]
    rw [h]
    constructor
    · show textContentL (cleanList ch) ++ "" = keptTextN (Node.elem t a ch)
      rw [ih.1]
      unfold keptTextN
      rw [if_neg hk]
      simp
    · intro m hm
      show tagOf m ∉ killTags
      have hm' : m = Node.elem t (cleanAttrs t a) (cleanList ch)
          ∨ m ∈ documentOrderL (cleanList ch) := by
        simp [documentOrderL, documentOrderN] at hm
        rcases hm with h1 | h2
        · exact Or.inl h1
        · exact Or.inr h2
      rcases hm' with h1 | h2
      · rw [h1]
        exact hk
      · exact ih.2 m h2
  · constructor
    · rfl
    · intro m hm
      simp [documentOrderL] at hm
  · intro n ns ih1 ih2
    constructor
    · show textContentL (cleanNode n ++ cleanList ns) = keptTextN n ++ keptTextL ns
      rw [textContentL_append, ih1.1, ih2.1]
    · intro m hm
      show tagOf m ∉ killTags
      have : m ∈ documentOrderL (cleanNode n) ∨ m ∈ documentOrderL (cleanList ns) := by
        have hsplit : documentOrderL (cleanNode n ++ cleanList ns)
            = documentOrderL (cleanNode n) ++ documentOrderL (cleanList ns) :=
          documentOrderL_append _ _
        rw [show documentOrderL (cleanList (NodeList.cons n ns))
              = documentOrderL (cleanNode n ++ cleanList ns) from rfl, hsplit] at hm
        exact List.mem_append.mp hm
      rcases this with h1 | h2
      · exact ih1.2 m h1
      · exact ih2.2 m h2

theorem cleanAttrs_anchor (t : String) (a : List Attr) (h : t = "a")
    (hx : externalHref (cleanAttrs t a) = true) :
    ∃ r, attrLookup (cleanAttrs t a) "rel" = some r ∧ relHasNofollow r = true := by
  subst h
  unfold cleanAttrs at hx ⊢
  by_cases hc : (("a" : String) == "a" && externalHref (a.filter attrKept)) = true
  · rw [if_pos hc] at hx ⊢
    exact setNofollow_lookup_rel _
  · rw [if_neg hc] at hx
    exfalso
    simp [hx] at hc

theorem clean_anchor_all :
    (∀ n, ∀ m ∈ documentOrderL (cleanNode n), anchorNofollowOk m)
      ∧ (∀ ns, ∀ m ∈ documentOrderL (cleanList ns), anchorNofollowOk m) := by
  apply cleanNode.mutual_induct
  · intro s m hm
    simp [documentOrderL, documentOrderN] at hm
  · intro t a ch hk m hm
    have h : cleanNode (Node.elem t a ch) = NodeList.nil := by
      unfold cleanNode
      rw [if_pos hk]
    rw [h] at hm
    simp [documentOrderL] at hm
  · intro t a ch hk hru ih m hm
    have h : cleanNode (Node.elem t a ch) = cleanList ch := by
      unfold cleanNode
      rw [if_neg hk, if_pos hru]
    rw [h] at hm
    exact ih m hm
  · intro t a ch hk hru ih m hm
    have h : cleanNode (Node.elem t a ch)
        = NodeList.cons (Node.elem t (cleanAttrs t a) (cleanList ch)) NodeList.nil := by
      unfold cleanNode
      rw [if_neg hk, if_neg hru]
    rw [h] at hm
    have hm' : m = Node.elem t (cleanAttrs t a) (cleanList ch)
        ∨ m ∈ documentOrderL (cleanList ch) := by
      simp [documentOrderL, documentOrderN] at hm
      rcases hm with h1 | h2
      · exact Or.inl h1
      · exact Or.inr h2
    rcases hm' with h1 | h2
    · rw [h1]
      intro ht hx
      exact cleanAttrs_anchor t a ht hx
    · exact ih m h2
  · intro m hm
    simp [documentOrderL] at hm
  · intro n ns ih1 ih2 m hm
    have : m ∈ documentOrderL (cleanNode n) ∨ m ∈ documentOrderL (cleanList ns) := by
      have hsplit : documentOrderL (cleanNode n ++ cleanList ns)
          = documentOrderL (cleanNode n) ++ documentOrderL (cleanList ns) :=
        documentOrderL_append _ _
      rw [show documentOrderL (cleanList (NodeList.cons n ns))
            = documentOrderL (cleanNode n ++ cleanList ns) from rfl, hsplit] at hm
      exact List.mem_append.mp hm
    rcases this with h1 | h2
    · exact ih1 m h1
    · exact ih2 m h2

theorem cleanNode_anchor (a : List Attr) (ch : NodeList) :
    cleanNode (Node.elem "a" a ch)
      = NodeList.cons (Node.elem "a" (cleanAttrs "a" a) (cleanList ch)) NodeList.nil := by
  unfold cleanNode
  rw [if_neg (by decide), if_neg (by decide)]

theorem select_find_all (s : Sel) :
    (∀ n, selectNode s n = (documentOrderN n).find? (selMatches s))
      ∧ (∀ ns, selectList s ns = (documentOrderL ns).find? (selMatches s)) := by
  apply selectNode.mutual_induct
  · intro a
    rfl
  · intro t a ch h
    unfold selectNode documentOrderN
    rw [if_pos h, List.find?_cons_of_pos _ h]
  · intro t a ch h ih
    unfold selectNode documentOrderN
    rw [if_neg h, List.find?_cons_of_neg _ h, ih]
  · rfl
  · intro n l d hsome ih
    show (match selectNode s n with
          | some d => some d
          | none => selectList s l) = (documentOrderL (NodeList.cons n l)).find? (selMatches s)
    rw [hsome]
    have hfind : (documentOrderN n).find? (selMatches s) = some d := by
      rw [← ih, hsome]
    show some d = (documentOrderN n ++ documentOrderL l).find? (selMatches s)
    rw [List.find?_append, hfind]
    rfl
  · intro n l hnone ih1 ih2
    show (match selectNode s n with
          | some d => some d
          | none => selectList s l) = (documentOrderL (NodeList.cons n l)).find? (selMatches s)
    rw [hnone]
    have hfind : (documentOrderN n).find? (selMatches s) = none := by
      rw [← ih1, hnone]
    show selectList s l = (documentOrderN n ++ documentOrderL l).find? (selMatches s)
    rw [List.find?_append, hfind, ih2]
    rfl

theorem selLoop_eq_findSome (sels : List Sel) (soup : NodeList) :
    selLoop sels soup = sels.findSome? (fun s => select_one s soup) := by
  induction sels with
  | nil => rfl
  | cons s rest ih =>
      unfold selLoop
      rw [List.findSome?_cons]
      cases h : select_one s soup with
      | some d => rfl
      | none => exact ih

theorem selMatches_body (m : Node) : selMatches (.tagSel "body") m = (tagOf m == "body") := by
  cases m with
  | text s => rfl
  | elem t a ch => rfl

/-! ## Visible-character lemmas for the Transformer -/

theorem visChars_append (s t : String) : visChars (s ++ t) = visChars s ++ visChars t := by
  unfold visChars
  rw [String.data_append, List.filter_append]

theorem filter_dropWhile_ws (q : Char → Bool) (hq : ∀ c, q c = true → isPySpace c = true) :
    ∀ l : List Char,
      (l.dropWhile q).filter (fun c => !isPySpace c) = l.filter (fun c => !isPySpace c)
  | [] => rfl
  | c :: cs => by
      rw [List.dropWhile_cons]
      cases hqc : q c with
      | true =>
          rw [if_pos rfl]
          have hws : isPySpace c = true := hq c hqc
          rw [filter_dropWhile_ws q hq cs, List.filter_cons]
          rw [if_neg (by rw [hws]; decide)]
      | false => rw [if_neg (by decide)]

theorem visChars_stripNlLeft (s : String) : visChars (stripNlLeft s) = visChars s := by
  unfold stripNlLeft visChars
  exact filter_dropWhile_ws _ (fun c h => by
    have : c = '\n' := of_decide_eq_true h
    rw [this]
    rfl) s.data

theorem visChars_stripNlRight (s : String) : visChars (stripNlRight s) = visChars s := by
  unfold stripNlRight visChars
  show List.filter _ (s.data.reverse.dropWhile _).reverse = _
  rw [List.filter_reverse]
  rw [filter_dropWhile_ws _ (fun c h => by
    have : c = '\n' := of_decide_eq_true h
    rw [this]
    rfl)]
  rw [List.filter_reverse, List.reverse_reverse]

theorem visChars_pyStrip (s : String) : visChars (pyStrip s) = visChars s := by
  unfold pyStrip visChars rstripL lstripL
  show List.filter _ ((s.data.dropWhile isPySpace).reverse.dropWhile isPySpace).reverse = _
  rw [List.filter_reverse, filter_dropWhile_ws _ (fun c h => h),
    List.filter_reverse, List.reverse_reverse, filter_dropWhile_ws _ (fun c h => h)]

theorem visChars_empty_of_strip (s : String) (h : (pyStrip s).data = []) : visChars s = [] := by
  rw [← visChars_pyStrip]
  unfold visChars
  rw [h]
  rfl

theorem visChars_replicate_nl (n : Nat) : visChars (replicateStr n '\n') = [] := by
  unfold visChars replicateStr
  show List.filter _ (List.replicate n '\n') = []
  rw [List.filter_replicate]
  rw [if_neg (by decide)]

theorem visChars_mergeBlock (a b : String) :
    visChars (mergeBlock a b) = visChars a ++ visChars b := by
  unfold mergeBlock
  rw [visChars_append, visChars_append, visChars_replicate_nl,
    visChars_stripNlRight, visChars_stripNlLeft]
  simp

theorem spTab_ws (c : Char) (h : isSpTab c = true) : isPySpace c = true := by
  unfold isSpTab at h
  simp only [Bool.or_eq_true, decide_eq_true_eq] at h
  rcases h with h | h <;> rw [h] <;> decide

theorem filter_collapseWs (l : List Char) :
    (collapseWsL l).filter (fun c => !isPySpace c) = l.filter (fun c => !isPySpace c) := by
  induction l using collapseWsL.induct with
  | case1 => rfl
  | case2 c h =>
      have hws : isPySpace c = true := spTab_ws c h
      rw [collapseWsL, if_pos h]
      rw [List.filter_cons, if_neg (by decide)]
      conv_rhs => rw [List.filter_cons]
      rw [if_neg (by rw [hws]; decide)]
  | case3 c h =>
      rw [collapseWsL, if_neg h]
  | case4 c d cs h1 h2 ih =>
      have hws : isPySpace c = true := spTab_ws c h1
      rw [collapseWsL, if_pos h1, if_pos h2, ih]
      conv_rhs => rw [List.filter_cons]
      rw [if_neg (by rw [hws]; decide)]
  | case5 c d cs h1 h2 ih =>
      have hws : isPySpace c = true := spTab_ws c h1
      rw [collapseWsL, if_pos h1, if_neg h2]
      rw [List.filter_cons, if_neg (by decide), ih]
      conv_rhs => rw [List.filter_cons]
      rw [if_neg (by rw [hws]; decide)]
  | case6 c d cs h1 ih =>
      rw [collapseWsL, if_neg h1]
      rw [List.filter_cons, ih]
      conv_rhs => rw [List.filter_cons]

theorem sub_right {l r : List Char} (x : List Char) (h : List.Sublist l r) :
    List.Sublist l (x ++ r) :=
  h.trans (List.sublist_append_right x r)

theorem sub_left {l r : List Char} (y : List Char) (h : List.Sublist l r) :
    List.Sublist l (r ++ y) :=
  h.trans (List.sublist_append_left r y)

theorem visChars_rstripL (s : String) : visChars (⟨rstripL s.data⟩ : String) = visChars s := by
  unfold visChars rstripL
  show ((s.data.reverse.dropWhile isPySpace).reverse).filter _ = _
  rw [List.filter_reverse, filter_dropWhile_ws _ (fun c h => h),
    List.filter_reverse, List.reverse_reverse]

theorem filter_sub_flatMap (l : List Char) :
    List.Sublist (l.filter (fun c => !isPySpace c))
      ((l.flatMap (fun c => if c = '*' then ['\\', '*'] else [c])).filter
          (fun c => !isPySpace c)) := by
  induction l with
  | nil => exact List.Sublist.refl _
  | cons c cs ih =>
      rw [List.flatMap_cons, List.filter_append, List.filter_cons]
      by_cases hc : c = '*'
      · subst hc
        rw [if_pos (by decide), if_pos rfl]
        show List.Sublist ('*' :: List.filter _ cs) (List.filter _ ['\\', '*'] ++ _)
        show List.Sublist ('*' :: List.filter _ cs) ('\\' :: '*' :: _)
        exact (ih.cons₂ '*').cons '\\'
      · rw [if_neg hc]
        show List.Sublist _ (List.filter _ [c] ++ _)
        rw [show List.filter (fun c => !isPySpace c) [c]
              = if (!isPySpace c) = true then [c] else [] from List.filter_cons]
        by_cases hp : (!isPySpace c) = true
        · rw [if_pos hp, if_pos hp]
          exact ih.cons₂ c
        · rw [if_neg hp, if_neg hp]
          exact ih

theorem visChars_process_text (s : String) :
    List.Sublist (visChars s) (visChars (process_text s)) := by
  have h1 : visChars s = (collapseWsL s.data).filter (fun c => !isPySpace c) :=
    (filter_collapseWs s.data).symm
  have h2 : visChars (process_text s)
      = ((collapseWsL s.data).flatMap (fun c => if c = '*' then ['\\', '*'] else [c])).filter
          (fun c => !isPySpace c) := rfl
  rw [h1, h2]
  exact filter_sub_flatMap _

theorem chomp_spec (s : String) :
    ∃ pre suf, chomp s = (pre, suf, pyStrip s) ∧ visChars pre = [] ∧ visChars suf = [] := by
  refine ⟨_, _, rfl, ?_, ?_⟩
  · by_cases h : s.data.head? = some ' '
    · show visChars (if s.data.head? = some ' ' then " " else "") = []
      rw [if_pos h]
      decide
    · show visChars (if s.data.head? = some ' ' then " " else "") = []
      rw [if_neg h]
      decide
  · by_cases h : s.data.getLast? = some ' '
    · show visChars (if s.data.getLast? = some ' ' then " " else "") = []
      rw [if_pos h]
      decide
    · show visChars (if s.data.getLast? = some ' ' then " " else "") = []
      rw [if_neg h]
      decide

theorem underline_sub (t : String) (pad : Char) :
    List.Sublist (visChars t) (visChars (underline t pad)) := by
  unfold underline
  by_cases h : (⟨rstripL t.data⟩ : String).data = []
  · rw [if_pos h]
    have hv : visChars t = [] := by
      rw [← visChars_rstripL t]
      unfold visChars
      rw [h]
      rfl
    rw [hv]
    exact List.nil_sublist _
  · rw [if_neg h]
    rw [visChars_append, visChars_append, visChars_append, visChars_rstripL]
    have h1 : visChars "\n" = [] := by decide
    have h2 : visChars "\n\n" = [] := by decide
    rw [h1, h2, List.append_nil, List.append_nil]
    exact sub_left _ (List.Sublist.refl _)

theorem convert_hn_sub (n : Nat) (inline : Bool) (text : String) :
    List.Sublist (visChars text) (visChars (convert_hn n inline text)) := by
  unfold convert_hn
  by_cases hi : inline = true
  · rw [if_pos hi]
  · rw [if_neg hi]
    by_cases hn : n ≤ 2
    · rw [if_pos hn]
      have hu := underline_sub (pyStrip text) (if n = 1 then '=' else '-')
      rw [visChars_pyStrip] at hu
      exact hu
    · rw [if_neg hn]
      rw [visChars_append, visChars_append, visChars_append, visChars_pyStrip]
      have h1 : visChars " " = [] := by decide
      have h2 : visChars "\n\n" = [] := by decide
      rw [h1, h2, List.append_nil, List.append_nil]
      exact sub_right _ (List.Sublist.refl _)

theorem inlineWrap_sub (m text : String) :
    List.Sublist (visChars text) (visChars (inlineWrap m text)) := by
  unfold inlineWrap
  obtain ⟨pre, suf, heq, hpre, hsuf⟩ := chomp_spec text
  rw [heq]
  show List.Sublist (visChars text)
    (visChars (if (pyStrip text).data = [] then "" else pre ++ m ++ pyStrip text ++ m ++ suf))
  by_cases h : (pyStrip text).data = []
  · rw [if_pos h]
    rw [visChars_empty_of_strip text h]
    exact List.nil_sublist _
  · rw [if_neg h]
    rw [visChars_append, visChars_append, visChars_append, visChars_append,
      hpre, hsuf, visChars_pyStrip, List.nil_append, List.append_nil]
    rw [List.append_assoc]
    exact sub_right _ (sub_left _ (List.Sublist.refl _))

theorem convert_a_sub (attrs : List Attr) (text : String) :
    List.Sublist (visChars text) (visChars (convert_a attrs text)) := by
  unfold convert_a
  obtain ⟨pre0, suf0, heq0, hpre, hsuf⟩ := chomp_spec text
  rw [heq0]
  show List.Sublist (visChars text)
    (visChars
      (if (pyStrip text).data = [] then ""
       else
         match attrLookup attrs "href" with
         | none => pyStrip text
         | some href =>
             match (match attrLookup attrs "title" with
                    | some ti => if ti.data = [] then none else some ti
                    | none => none) with
             | none =>
                 if pyStrip text == href then "<" ++ href ++ ">"
                 else pre0 ++ "[" ++ pyStrip text ++ "](" ++ href ++ ")" ++ suf0
             | some ti =>
                 pre0 ++ "[" ++ pyStrip text ++ "](" ++ href ++ " \"" ++ escapeQuotes ti
                   ++ "\")" ++ suf0))
  by_cases h : (pyStrip text).data = []
  · rw [if_pos h, visChars_empty_of_strip text h]
    exact List.nil_sublist _
  · rw [if_neg h]
    cases hhref : attrLookup attrs "href" with
    | none =>
        show List.Sublist (visChars text) (visChars (pyStrip text))
        rw [visChars_pyStrip]
    | some href =>
        cases htitle : (match attrLookup attrs "title" with
                        | some ti => if ti.data = [] then none else some ti
                        | none => none) with
        | none =>
            show List.Sublist (visChars text)
              (visChars
                (if (pyStrip text == href) = true then "<" ++ href ++ ">"
                 else pre0 ++ "[" ++ pyStrip text ++ "](" ++ href ++ ")" ++ suf0))
            by_cases hauto : (pyStrip text == href) = true
            · rw [if_pos hauto]
              have he : pyStrip text = href := eq_of_beq hauto
              rw [← he]
              simp only [visChars_append, visChars_pyStrip, List.append_assoc]
              exact sub_right _ (sub_left _ (List.Sublist.refl _))
            · rw [if_neg hauto]
              simp only [visChars_append, hpre, hsuf, visChars_pyStrip, List.append_assoc,
                List.nil_append, List.append_nil]
              exact sub_right _ (sub_left _ (List.Sublist.refl _))
        | some ti =>
            show List.Sublist (visChars text)
              (visChars (pre0 ++ "[" ++ pyStrip text ++ "](" ++ href ++ " \""
                ++ escapeQuotes ti ++ "\")" ++ suf0))
            simp only [visChars_append, hpre, hsuf, visChars_pyStrip, List.append_assoc,
              List.nil_append, List.append_nil]
            exact sub_right _ (sub_left _ (List.Sublist.refl _))

theorem applyTag_sub (inline : Bool) (tag : String) (attrs : List Attr) (text : String)
    (hbr : tag ≠ "br") :
    List.Sublist (visChars text) (visChars (applyTag inline tag attrs text)) := by
  unfold applyTag
  by_cases h1 : isHeadingTag tag = true
  · rw [if_pos h1]
    exact convert_hn_sub _ _ _
  · rw [if_neg h1]
    by_cases h2 : tag = "p"
    · rw [if_pos h2]
      by_cases hi : inline = true
      · rw [if_pos hi]
      · rw [if_neg hi]
        by_cases ht : text.data = []
        · rw [if_pos ht]
          have hv : visChars text = [] := by
            unfold visChars
            rw [ht]
            rfl
          rw [hv]
          exact List.nil_sublist _
        · rw [if_neg ht, visChars_append]
          have hv : visChars "\n\n" = [] := by decide
          rw [hv, List.append_nil]
    · rw [if_neg h2]
      by_cases h3 : tag = "b" ∨ tag = "strong"
      · rw [if_pos h3]
        exact inlineWrap_sub _ _
      · rw [if_neg h3]
        by_cases h4 : tag = "em" ∨ tag = "i"
        · rw [if_pos h4]
          exact inlineWrap_sub _ _
        · rw [if_neg h4]
          by_cases h5 : tag = "a"
          · rw [if_pos h5]
            exact convert_a_sub _ _
          · rw [if_neg h5]
            rw [if_neg hbr]

theorem convert_text_all :
    (∀ (inline : Bool) (n : Node), voidsOkN n = true →
        List.Sublist (visChars (textContentN n)) (visChars (convertNode inline n)))
      ∧ (∀ (inline : Bool) (acc : String) (ns : NodeList), voidsOkL ns = true →
          List.Sublist (visChars acc ++ visChars (textContentL ns))
            (visChars (convertChildren inline acc ns))) := by
  apply convertNode.mutual_induct
  · intro inline s _
    show List.Sublist (visChars s) (visChars (process_text s))
    exact visChars_process_text s
  · intro inline t a ch ih hv
    have hv' := hv
    unfold voidsOkN at hv'
    rw [Bool.and_eq_true] at hv'
    obtain ⟨hv1, hv2⟩ := hv'
    have hch := ih hv2
    rw [show visChars "" = [] from rfl, List.nil_append] at hch
    show List.Sublist (visChars (textContentL ch))
        (visChars (applyTag inline t a (convertChildren (inline || isHeadingTag t) "" ch)))
    by_cases hbr : t = "br"
    · subst hbr
      rw [if_pos (by decide)] at hv1
      cases ch with
      | nil =>
          show List.Sublist (visChars "") _
          exact List.nil_sublist _
      | cons m ms => simp at hv1
    · exact hch.trans (applyTag_sub inline t a _ hbr)
  · intro inline acc _
    show List.Sublist (visChars acc ++ visChars (textContentL NodeList.nil)) (visChars acc)
    rw [show visChars (textContentL NodeList.nil) = [] from rfl, List.append_nil]
  · intro inline acc rest s ih hv
    have hv' := hv
    unfold voidsOkL at hv'
    rw [Bool.and_eq_true] at hv'
    have ihh := ih hv'.2
    show List.Sublist (visChars acc ++ visChars (s ++ textContentL rest))
        (visChars (convertChildren inline (acc ++ process_text s) rest))
    rw [visChars_append]
    rw [visChars_append] at ihh
    have hmid : List.Sublist
        (visChars acc ++ (visChars s ++ visChars (textContentL rest)))
        (visChars acc ++ (visChars (process_text s) ++ visChars (textContentL rest))) :=
      (List.Sublist.refl _).append ((visChars_process_text s).append (List.Sublist.refl _))
    apply hmid.trans
    rw [← List.append_assoc]
    exact ihh
  · intro inline acc rest t a ch ih1 ih2 hv
    have hv' := hv
    unfold voidsOkL at hv'
    rw [Bool.and_eq_true] at hv'
    obtain ⟨hv1, hv2⟩ := hv'
    have ihn := ih1 hv1
    have ihr := ih2 hv2
    show List.Sublist
        (visChars acc ++ visChars (textContentN (Node.elem t a ch) ++ textContentL rest))
        (visChars (convertChildren inline
          (mergeBlock acc (convertNode inline (Node.elem t a ch))) rest))
    rw [visChars_append]
    rw [visChars_mergeBlock] at ihr
    have hmid : List.Sublist
        (visChars acc ++ (visChars (textContentN (Node.elem t a ch))
          ++ visChars (textContentL rest)))
        (visChars acc ++ (visChars (convertNode inline (Node.elem t a ch))
          ++ visChars (textContentL rest))) :=
      (List.Sublist.refl _).append (ihn.append (List.Sublist.refl _))
    apply hmid.trans
    rw [← List.append_assoc]
    exact ihr

/-! ## Claim theorems -/

/-- C1: the claim says the Markdown output begins the heading line with the
run of `#` configured at construction (default shifted one deeper:
`h1→##`, ..., `h6→#######`).  The code evaluated at the failing inputs:
markdownify has no `substitutions` option, so `h1` renders as a Setext
heading (`Title\n=====`) that begins with no `#` at all, and `h3`/`h6`
render with their literal number of `#`, not the configured shifted
count. -/
theorem C1_heading_substitutions_ignored :
    convert_to_markdown_with_details "<h1>Title</h1>" = "Title\n=====\n\n"
      ∧ ¬ ("##".data <+: (convert_to_markdown_with_details "<h1>Title</h1>").data)
      ∧ convert_to_markdown_with_details "<h3>Title</h3>" = "### Title\n\n"
      ∧ ¬ ("####".data <+: (convert_to_markdown_with_details "<h3>Title</h3>").data)
      ∧ convert_to_markdown_with_details "<h6>Title</h6>" = "###### Title\n\n"
      ∧ ¬ ("#######".data <+: (convert_to_markdown_with_details "<h6>Title</h6>").data) := by
  decide

/-- C2 counterexample: on the whitespace-only fragment `" "` (which cannot
be parsed into a DOM) `clean_html` does not return a typed error value —
it raises lxml's `ParserError`, which propagates uncaught. -/
theorem C2_counterexample :
    clean_html " " = PyResult.raises (PyErr.parserError "Document is empty") := by
  decide

/-- C2 amended: a fragment that cannot be parsed into a DOM makes
`clean_html` raise `lxml.etree.ParserError` (an uncaught exception
propagating to the caller), not a typed `SanitizationError` value; the
empty string returns `""`, so "could not parse" is still distinguishable
from "cleaned to nothing", but by exception versus normal return. -/
theorem C2_amended (s : String) (h1 : s.isEmpty = false) (h2 : fromstring s = none) :
    clean_html s = PyResult.raises (PyErr.parserError "Document is empty")
      ∧ clean_html "" = PyResult.returns "" := by
  constructor
  · unfold clean_html
    rw [if_neg (by rw [h1]; exact Bool.false_ne_true), h2]
  · decide

/-- C2 witness: the amended theorem applied at the concrete unparseable
input `" "`. -/
theorem C2_amended_witness :
    (" ").isEmpty = false ∧ fromstring " " = none
      ∧ clean_html " " = PyResult.raises (PyErr.parserError "Document is empty") :=
  ⟨by decide, by decide, (C2_amended " " (by decide) (by decide)).1⟩

/-- C3 counterexample: on input `"Just text"` the Locator fails, and the
pipeline's result is a plain `returns`-channel string — the same type and
channel as a Markdown document, not a stage-tagged error value. -/
theorem C3_counterexample :
    extract_main_content "Just text" = none
      ∧ scrape_robustly_from (some "Just text")
          = PyResult.returns "Could not identify main content." := by
  decide

/-- C3 amended: when the Locator yields `Absent` on a non-empty document
the pipeline does halt at that stage — the Sanitizer and the Transformer
never run and no Markdown is produced — but the result is the fixed
sentinel string `"Could not identify main content."` returned in the
normal channel (a prose hint at the stage, not a typed stage-tagged error
value; a Sanitizer parse failure would instead propagate as an uncaught,
untagged exception). -/
theorem C3_amended (d : String) (h1 : d.isEmpty = false)
    (h2 : extract_main_content d = none) :
    scrapeTraced (some d)
      = ([Stage.locate], PyResult.returns "Could not identify main content.")
      ∧ Stage.sanitize ∉ (scrapeTraced (some d)).1
      ∧ Stage.transform ∉ (scrapeTraced (some d)).1 := by
  have heq : scrapeTraced (some d)
      = ([Stage.locate], PyResult.returns "Could not identify main content.") := by
    unfold scrapeTraced
    show (if d.isEmpty = true then ([], PyResult.returns "Failed to fetch content.")
          else
            match extract_main_content d with
            | none => ([Stage.locate], PyResult.returns "Could not identify main content.")
            | some main_content_html =>
              match clean_html main_content_html with
              | PyResult.raises e => ([Stage.locate, Stage.sanitize], PyResult.raises e)
              | PyResult.returns cleaned =>
                  ([Stage.locate, Stage.sanitize, Stage.transform],
                   PyResult.returns (convert_to_markdown_with_details cleaned)))
        = ([Stage.locate], PyResult.returns "Could not identify main content.")
    rw [if_neg (by rw [h1]; exact Bool.false_ne_true), h2]
  refine ⟨heq, ?_, ?_⟩
  · rw [heq]
    decide
  · rw [heq]
    decide

/-- C3 witness: the amended theorem applied at the concrete
locator-failing input `"Just text"`. -/
theorem C3_amended_witness :
    scrapeTraced (some "Just text")
      = ([Stage.locate], PyResult.returns "Could not identify main content.") :=
  (C3_amended "Just text" (by decide) (by decide)).1

/-- C4: the Locator loop of `extract_main_content` computes exactly the
spec's procedure: try `main`, `article`, `.main`, `#main`, `.content`,
`#content` in that fixed priority order, return the first selector's
first match in document order, fall back to the first `body` element when
no selector matches, and yield `Absent` (`none`) when `body` is missing
too. -/
theorem C4_locator_priority (soup : NodeList) : locateDom soup = specLocate soup := by
  unfold locateDom specLocate
  rw [selLoop_eq_findSome]
  have hsel : (fun s => select_one s soup)
      = (fun s => (documentOrderL soup).find? (selMatches s)) :=
    funext fun s => (select_find_all s).2 soup
  rw [hsel]
  have hbody : find_body soup
      = (documentOrderL soup).find? (fun n => tagOf n == "body") := by
    unfold find_body
    rw [(select_find_all (Sel.tagSel "body")).2 soup]
    exact congrArg (fun f => (documentOrderL soup).find? f) (funext selMatches_body)
  rw [hbody]

/-- C5 counterexample: two sanitized fragments with different text content
(`x` versus the literal text `[x](u)`) produce the identical Markdown
output `[x](u)`, because link targets are embedded in the output and
Markdown link syntax inside text nodes is not escaped.  Hence no
marker-stripping function of the output can recover the text content of
both fragments, and the claimed equality fails. -/
theorem C5_counterexample :
    convertChildren false ""
        (NodeList.cons
          (Node.elem "a" [("href", "u"), ("rel", "nofollow")]
            (NodeList.cons (Node.text "x") NodeList.nil)) NodeList.nil)
      = convertChildren false "" (NodeList.cons (Node.text "[x](u)") NodeList.nil)
      ∧ textContentL
          (NodeList.cons
            (Node.elem "a" [("href", "u"), ("rel", "nofollow")]
              (NodeList.cons (Node.text "x") NodeList.nil)) NodeList.nil)
        ≠ textContentL (NodeList.cons (Node.text "[x](u)") NodeList.nil)
      ∧ cleanList
          (NodeList.cons
            (Node.elem "a" [("href", "u"), ("rel", "nofollow")]
              (NodeList.cons (Node.text "x") NodeList.nil)) NodeList.nil)
        = NodeList.cons
            (Node.elem "a" [("href", "u"), ("rel", "nofollow")]
              (NodeList.cons (Node.text "x") NodeList.nil)) NodeList.nil
      ∧ cleanList (NodeList.cons (Node.text "[x](u)") NodeList.nil)
        = NodeList.cons (Node.text "[x](u)") NodeList.nil := by
  decide

/-- C5 amended: for every sanitized (Cleaner-fixed) parsed fragment —
void elements childless, as every parse produces — every text node's
content appears in the Markdown output in document order: the
non-whitespace characters of the concatenated text nodes form a
subsequence of the output.  (Exact equality with a marker-stripped output
is refuted by the counterexample.) -/
theorem C5_amended (ns : NodeList) (hvoid : voidsOkL ns = true)
    (_hsan : cleanList ns = ns) :
    List.Sublist (visChars (textContentL ns)) (convertChildren false "" ns).data := by
  have h := convert_text_all.2 false "" ns hvoid
  rw [show visChars "" = [] from rfl, List.nil_append] at h
  exact h.trans (List.filter_sublist _)

/-- C5 witness: the amended theorem applied to the concrete sanitized
fragment `<p>Hello <b>world</b></p>`. -/
theorem C5_amended_witness :
    voidsOkL
        (NodeList.cons
          (Node.elem "p" []
            (NodeList.cons (Node.text "Hello ")
              (NodeList.cons (Node.elem "b" [] (NodeList.cons (Node.text "world") NodeList.nil))
                NodeList.nil))) NodeList.nil) = true
      ∧ cleanList
          (NodeList.cons
            (Node.elem "p" []
              (NodeList.cons (Node.text "Hello ")
                (NodeList.cons
                  (Node.elem "b" [] (NodeList.cons (Node.text "world") NodeList.nil))
                  NodeList.nil))) NodeList.nil)
        = NodeList.cons
            (Node.elem "p" []
              (NodeList.cons (Node.text "Hello ")
                (NodeList.cons
                  (Node.elem "b" [] (NodeList.cons (Node.text "world") NodeList.nil))
                  NodeList.nil))) NodeList.nil
      ∧ List.Sublist
          (visChars (textContentL
            (NodeList.cons
              (Node.elem "p" []
                (NodeList.cons (Node.text "Hello ")
                  (NodeList.cons
                    (Node.elem "b" [] (NodeList.cons (Node.text "world") NodeList.nil))
                    NodeList.nil))) NodeList.nil)))
          (convertChildren false ""
            (NodeList.cons
              (Node.elem "p" []
                (NodeList.cons (Node.text "Hello ")
                  (NodeList.cons
                    (Node.elem "b" [] (NodeList.cons (Node.text "world") NodeList.nil))
                    NodeList.nil))) NodeList.nil)).data :=
  ⟨by decide, by decide, C5_amended _ (by decide) (by decide)⟩

/-- C6: for every fragment, the Sanitizer's output contains no `script`
and no `style` element, and its text content is exactly the input's text
outside dropped-with-content tags — sibling text survives, text inside
`script`/`style` does not. -/
theorem C6_script_style_removed (ns : NodeList) :
    (∀ m ∈ documentOrderL (cleanList ns), tagOf m ≠ "script" ∧ tagOf m ≠ "style")
      ∧ textContentL (cleanList ns) = keptTextL ns := by
  refine ⟨?_, (clean_text_all.2 ns).1⟩
  intro m hm
  have hk := (clean_text_all.2 ns).2 m hm
  constructor
  · intro h
    exact hk (by rw [h]; decide)
  · intro h
    exact hk (by rw [h]; decide)

/-- C6 witness: the theorem applied to the fragment
`<p>keep</p><script>bad()</script><style>css</style>`: the surviving
element is the `p`, and the cleaned text is exactly `keep`. -/
theorem C6_witness :
    tagOf (Node.elem "p" [] (NodeList.cons (Node.text "keep") NodeList.nil)) ≠ "script"
      ∧ textContentL (cleanList
          (NodeList.cons (Node.elem "p" [] (NodeList.cons (Node.text "keep") NodeList.nil))
            (NodeList.cons
              (Node.elem "script" [] (NodeList.cons (Node.text "bad()") NodeList.nil))
              (NodeList.cons
                (Node.elem "style" [] (NodeList.cons (Node.text "css") NodeList.nil))
                NodeList.nil))))
        = keptTextL
            (NodeList.cons (Node.elem "p" [] (NodeList.cons (Node.text "keep") NodeList.nil))
              (NodeList.cons
                (Node.elem "script" [] (NodeList.cons (Node.text "bad()") NodeList.nil))
                (NodeList.cons
                  (Node.elem "style" [] (NodeList.cons (Node.text "css") NodeList.nil))
                  NodeList.nil))) := by
  have h := C6_script_style_removed
    (NodeList.cons (Node.elem "p" [] (NodeList.cons (Node.text "keep") NodeList.nil))
      (NodeList.cons
        (Node.elem "script" [] (NodeList.cons (Node.text "bad()") NodeList.nil))
        (NodeList.cons
          (Node.elem "style" [] (NodeList.cons (Node.text "css") NodeList.nil))
          NodeList.nil)))
  exact ⟨(h.1 (Node.elem "p" [] (NodeList.cons (Node.text "keep") NodeList.nil))
    (by decide)).1, h.2⟩

/-- C7: the Sanitizer is idempotent on the DOM: cleaning an
already-cleaned forest changes nothing. -/
theorem C7_sanitizer_idempotent (ns : NodeList) :
    cleanList (cleanList ns) = cleanList ns :=
  clean_idem_all.2 ns

/-- C8 counterexample: an anchor whose `href` is a pure fragment
reference (`#top`) remains in the Sanitizer output entirely unchanged —
no `rel="nofollow"` is added — refuting "annotates each hyperlink that
remains". -/
theorem C8_counterexample :
    cleanList
        (NodeList.cons (Node.elem "a" [("href", "#top")]
          (NodeList.cons (Node.text "y") NodeList.nil)) NodeList.nil)
      = NodeList.cons (Node.elem "a" [("href", "#top")]
          (NodeList.cons (Node.text "y") NodeList.nil)) NodeList.nil
      ∧ attrLookup [("href", "#top")] "rel" = none := by
  decide

/-- C8 amended: every hyperlink remaining in the Sanitizer output whose
`href` is external (non-empty, not starting with `#`) carries the
`nofollow` token in its `rel` attribute; and anchors are never removed —
the Cleaner's `links=True` drops `<link>` tags, not anchors, so an anchor
element always survives with its (cleaned) children and hence its inner
text. -/
theorem C8_amended (ns : NodeList) :
    (∀ m ∈ documentOrderL (cleanList ns), anchorNofollowOk m)
      ∧ (∀ (a : List Attr) (ch : NodeList), cleanNode (Node.elem "a" a ch)
          = NodeList.cons (Node.elem "a" (cleanAttrs "a" a) (cleanList ch)) NodeList.nil) :=
  ⟨clean_anchor_all.2 ns, fun a ch => cleanNode_anchor a ch⟩

/-- C8 witness: the amended theorem applied to `<a href="http://e.com">x</a>`:
the cleaned anchor carries `rel` with the `nofollow` token. -/
theorem C8_amended_witness :
    ∃ r, attrLookup (attrsOf (Node.elem "a" [("href", "http://e.com"), ("rel", "nofollow")]
        (NodeList.cons (Node.text "x") NodeList.nil))) "rel" = some r
      ∧ relHasNofollow r = true := by
  have h := (C8_amended
    (NodeList.cons (Node.elem "a" [("href", "http://e.com")]
      (NodeList.cons (Node.text "x") NodeList.nil)) NodeList.nil)).1
  exact h (Node.elem "a" [("href", "http://e.com"), ("rel", "nofollow")]
    (NodeList.cons (Node.text "x") NodeList.nil)) (by decide) (by decide) (by decide)

/-- C9 counterexample: for the empty string the orchestrator's falsy
check at line 102 treats the page source as a fetch failure: the result
is the fetch sentinel, not the no-content outcome the claim names, and
the Locator never runs (the stage trace is empty). -/
theorem C9_counterexample :
    scrape_robustly_from (some "") = PyResult.returns "Failed to fetch content."
      ∧ scrape_robustly_from (some "")
          ≠ PyResult.returns "Could not identify main content."
      ∧ (scrapeTraced (some "")).1 = [] := by
  decide

/-- C9 amended: on the empty string the Locator itself does return
`Absent`, but the orchestrator never consults it: the falsy-input check
returns "Failed to fetch content." before any stage runs, so Sanitizer
and Transformer (and even the Locator) are not invoked. -/
theorem C9_amended :
    extract_main_content "" = none
      ∧ scrapeTraced (some "") = ([], PyResult.returns "Failed to fetch content.") := by
  decide

/-- C10: a non-empty, parseable input with no tags at all — `"Just text"`
— parses to a single text node (the lenient `html.parser` does not
synthesize a `body`), no selector matches, and the Locator yields the
no-content outcome `none`. -/
theorem C10_text_only_no_content :
    parseHTML "Just text" = NodeList.cons (Node.text "Just text") NodeList.nil
      ∧ "Just text" ≠ ""
      ∧ extract_main_content "Just text" = none := by
  decide
